import Mathlib

/-!
Verification of the MangaDb document-store service (`mongo_db_service.py`).

The embedding models JSON-like documents as association lists with Python
`dict` semantics (insertion order preserved; setting an existing key keeps
its position), the in-memory store `MongoDBService.collections`, the
per-collection `.dat` files, and the operations `insert`, `find_one`,
`find`, `update`, `delete`, `_save_document`, `_update_collection_file`,
`_load_collections`, `_parse_message` and the dispatch loop of
`_handle_client`.

Effects are made explicit: `str(uuid.uuid4())` becomes a `newId : String`
parameter, and a file write that raises (caught and only logged by the
source) becomes a `writeOk : Bool` parameter; the file system is a mapping
from collection name to the list of document lines of `<name>.dat`.
-/

/-- A JSON-compatible value, as produced by `json.loads`.
Numbers are modelled as integers (no claim depends on float semantics);
arrays and nested objects are encoded with cons-style constructors
(`arrCons x rest`, `objCons key value rest`), which is isomorphic to a
`List`-based representation and keeps equality structural, matching
Python's deep `==` on parsed JSON. -/
inductive JValue where
  | null : JValue
  | bool (b : Bool) : JValue
  | num (n : Int) : JValue
  | str (s : String) : JValue
  | arrNil : JValue
  | arrCons (hd tl : JValue) : JValue
  | objNil : JValue
  | objCons (key : String) (val tl : JValue) : JValue
deriving DecidableEq, Repr

/-- A Python `dict` with string keys (a JSON document at the top level):
an insertion-ordered association list with unique keys. -/
abbrev Doc := List (String × JValue)

/-- The type of `self.collections[name]`: a Python dict from `_id` value to document.
(Python allows any hashable `doc["_id"]` as the key, hence `JValue`.) -/
abbrev Collection := List (JValue × Doc)

/-- The type of `self.collections`: collection name → collection. -/
abbrev Store := List (String × Collection)

/-- The data directory: collection name → lines of `<name>.dat`, each line
the `json.dumps` of one document. -/
abbrev FileSys := List (String × List Doc)

/-- Lookup `d[k]` in a Python dict, `none` when the key is absent. -/
def alget {α : Type} [DecidableEq α] {β : Type} : List (α × β) → α → Option β
  | [], _ => none
  | (k, v) :: rest, key => if k = key then some v else alget rest key

/-- Assignment `d[k] = v` on a Python dict: an existing key keeps its position and
gets the new value; a new key is appended at the end. -/
def alset {α : Type} [DecidableEq α] {β : Type} : List (α × β) → α → β → List (α × β)
  | [], key, val => [(key, val)]
  | (k, v) :: rest, key, val =>
      if k = key then (k, val) :: rest else (k, v) :: alset rest key val

/-- Deletion `del d[k]` on a Python dict. -/
def alremove {α : Type} [DecidableEq α] {β : Type} : List (α × β) → α → List (α × β)
  | [], _ => []
  | (k, v) :: rest, key => if k = key then rest else (k, v) :: alremove rest key

/-- The whole mutable state of `MongoDBService`: the in-memory store and
the on-disk collection files. -/
structure SState where
  collections : Store
  files : FileSys
deriving DecidableEq, Repr

/-- The matching loop shared verbatim by `find_one`, `find`, `update` and
`delete`: `matches = True; for key, value in query.items(): if key not in
doc or doc[key] != value: matches = False; break`. -/
def docMatches (doc query : Doc) : Bool :=
  query.all fun kv => decide (alget doc kv.1 = some kv.2)

/-- From `MongoDBService.find_one`: first document of the collection (in dict
iteration order) matching the query, `None` if the collection is absent or
nothing matches. -/
def find_one (store : Store) (c : String) (query : Doc) : Option Doc :=
  match alget store c with
  | none => none
  | some coll => (coll.map Prod.snd).find? fun doc => docMatches doc query

/-- From `MongoDBService.find`: every document of the collection matching the
query, `[]` if the collection is absent. -/
def find (store : Store) (c : String) (query : Doc) : List Doc :=
  match alget store c with
  | none => []
  | some coll => (coll.map Prod.snd).filter fun doc => docMatches doc query

/-- From `MongoDBService._save_document`: create the collection in memory if
absent, ensure the document has an `_id` (generating `newId` otherwise),
store it under that `_id`, and append one line to `<name>.dat`. A write
that raises (`writeOk = false`) is caught and only logged: the file is
unchanged while the in-memory store keeps the document. -/
def save_document (st : SState) (c : String) (document : Doc) (newId : String)
    (writeOk : Bool) : SState :=
  let store :=
    match alget st.collections c with
    | none => alset st.collections c ([] : Collection)
    | some _ => st.collections
  let document :=
    match alget document "_id" with
    | none => alset document "_id" (JValue.str newId)
    | some _ => document
  let docId := (alget document "_id").getD JValue.null
  let coll := (alget store c).getD []
  let store := alset store c (alset coll docId document)
  let files :=
    if writeOk then
      alset st.files c ((alget st.files c).getD [] ++ [document])
    else st.files
  { collections := store, files := files }

/-- From `MongoDBService.insert`: ensure an `_id` (generating `newId` if the
document lacks one), delegate to `_save_document`, return `document["_id"]`. -/
def MongoDBService.insert (st : SState) (c : String) (document : Doc) (newId : String)
    (writeOk : Bool) : SState × JValue :=
  let document :=
    match alget document "_id" with
    | none => alset document "_id" (JValue.str newId)
    | some _ => document
  let st := save_document st c document newId writeOk
  (st, (alget document "_id").getD JValue.null)

/-- From `MongoDBService._update_collection_file`: rewrite `<name>.dat` with the
current in-memory documents, one line each; nothing happens if the
collection is absent; a write that raises (`writeOk = false`) is caught and
only logged. -/
def update_collection_file (st : SState) (c : String) (writeOk : Bool) : SState :=
  match alget st.collections c with
  | none => st
  | some coll =>
      if writeOk then { st with files := alset st.files c (coll.map Prod.snd) }
      else st

/-- The merge loop `for key, value in update.items(): doc[key] = value`. -/
def applyPatch (doc patch : Doc) : Doc :=
  patch.foldl (fun d kv => alset d kv.1 kv.2) doc

/-- From `MongoDBService.update`: merge the patch into every matching document
(in place, keys of the collection dict untouched), return the match count,
and rewrite the collection file when the count is positive. -/
def update (st : SState) (c : String) (query patch : Doc) (writeOk : Bool) :
    SState × Nat :=
  match alget st.collections c with
  | none => (st, 0)
  | some coll =>
      let newColl : Collection := coll.map fun kv =>
        if docMatches kv.2 query then (kv.1, applyPatch kv.2 patch) else kv
      let count := (coll.filter fun kv => docMatches kv.2 query).length
      if count > 0 then
        let st' : SState := { st with collections := alset st.collections c newColl }
        (update_collection_file st' c writeOk, count)
      else (st, 0)

/-- From `MongoDBService.delete`: collect the ids of matching documents, delete
them from the collection dict, return the count, and rewrite the
collection file when the count is positive. -/
def delete (st : SState) (c : String) (query : Doc) (writeOk : Bool) :
    SState × Nat :=
  match alget st.collections c with
  | none => (st, 0)
  | some coll =>
      let toDelete := (coll.filter fun kv => docMatches kv.2 query).map Prod.fst
      let count := toDelete.length
      let newColl := toDelete.foldl (fun cl i => alremove cl i) coll
      if count > 0 then
        let st' : SState := { st with collections := alset st.collections c newColl }
        (update_collection_file st' c writeOk, count)
      else (st, 0)

/-- One line of a `.dat` file as seen by `_load_collections`:
`ok d` — `line.strip()` nonempty and `json.loads(line)` yields object `d`;
`bad` — `json.loads(line)` raises (invalid JSON);
`blank` — `line.strip()` is empty, skipped. -/
inductive Line where
  | ok (d : Doc) : Line
  | bad : Line
  | blank : Line
deriving DecidableEq, Repr

/-- The per-file loop of `MongoDBService._load_collections`, starting from
collection `coll` (`{}` at entry): each parsed line carrying an `_id` is
stored under it. The whole loop sits inside one `try`, so a line that
fails to parse raises out of the loop and the collection stays as built so
far. -/
def loadFile : List Line → Collection → Collection
  | [], coll => coll
  | Line.blank :: rest, coll => loadFile rest coll
  | Line.bad :: _, coll => coll
  | Line.ok d :: rest, coll =>
      match alget d "_id" with
      | some i => loadFile rest (alset coll i d)
      | none => loadFile rest coll

/-- Returns `true` for a line that parses (or is blank), `false` for one whose
`json.loads` raises. -/
def lineOk : Line → Bool
  | Line.bad => false
  | _ => true

/-- The document carried by the last line of the file whose `_id` field
equals `i`, if any. -/
def lastWrite : List Line → JValue → Option Doc
  | [], _ => none
  | Line.ok d :: rest, i =>
      match lastWrite rest i with
      | some d' => some d'
      | none => if alget d "_id" = some i then some d else none
  | _ :: rest, i => lastWrite rest i

/-! Wire protocol (`_parse_message`, `_create_response`, `_handle_client`). -/

def MSG_TYPE_INSERT : Nat := 1
def MSG_TYPE_UPDATE : Nat := 2
def MSG_TYPE_DELETE : Nat := 3
def MSG_TYPE_FIND : Nat := 4
def MSG_TYPE_FIND_ONE : Nat := 5
def MSG_TYPE_RESPONSE : Nat := 6
def MSG_TYPE_ERROR : Nat := 7
def MSG_TYPE_LIST_COLLECTIONS : Nat := 8

/-- One `recv` result inside `_handle_client`:
`empty` — `b""` (peer closed; `if not data: break`);
`frame b body` — nonempty data with first byte `b`, where `body` is the
outcome of `json.loads(data[1:])`: `some payload` when it yields a JSON
object, `none` when it raises (invalid JSON, e.g. an empty remainder). -/
inductive RecvData where
  | empty : RecvData
  | frame (firstByte : Nat) (body : Option Doc) : RecvData
deriving DecidableEq, Repr

/-- What `_parse_message` returns: a payload object, or — when anything in
it raised — the pair `(MSG_TYPE_ERROR, ("error": message))`. -/
inductive ParseResult where
  | payload (d : Doc) : ParseResult
  | err (msg : String) : ParseResult
deriving DecidableEq, Repr

/-- From `MongoDBService._parse_message`: byte 0 is the type, the rest is JSON;
any exception (empty data indexing, invalid JSON) is caught and turned into
`(MSG_TYPE_ERROR, ("error": str(e)))`. -/
def parse_message : RecvData → Nat × ParseResult
  | RecvData.empty => (MSG_TYPE_ERROR, ParseResult.err "index out of range")
  | RecvData.frame _ none => (MSG_TYPE_ERROR, ParseResult.err "invalid JSON")
  | RecvData.frame b (some d) => (b, ParseResult.payload d)

/-- Re-encode a document as a JSON object value (for response payloads). -/
def JValue.ofFields : List (String × JValue) → JValue
  | [] => JValue.objNil
  | (k, v) :: rest => JValue.objCons k v (JValue.ofFields rest)

/-- Re-encode a list as a JSON array value (for response payloads). -/
def JValue.ofList : List JValue → JValue
  | [] => JValue.arrNil
  | x :: xs => JValue.arrCons x (JValue.ofList xs)

/-- View a JSON value as a document. Request fields (`document`, `query`,
`update`) that are not JSON objects are modelled as empty objects; on such
payloads the source raises inside the handler and closes the connection,
a path no claim concerns. -/
def JValue.toFields : JValue → Doc
  | JValue.objCons k v rest => (k, v) :: JValue.toFields rest
  | _ => []

/-- Extraction of `payload.get("collection")`, as the string key of `self.collections`.
A missing or non-string value is modelled as `""` (the source would use
`None` or the raw value as the dict key; no claim depends on that). -/
def getCollectionName (payload : Doc) : String :=
  match alget payload "collection" with
  | some (JValue.str s) => s
  | _ => ""

/-- Extraction of `payload.get(k, \x7b\x7d)` viewed as a document. -/
def getObjField (payload : Doc) (k : String) : Doc :=
  match alget payload k with
  | some v => v.toFields
  | none => []

/-- The default `response_payload` of `_handle_client`. -/
def unknownTypePayload : JValue :=
  JValue.ofFields [("status", JValue.str "error"),
                   ("message", JValue.str "Unknown message type")]

/-- The dispatch of one parsed message in `_handle_client`: run the store
operation selected by the message type and build `response_payload`; any
unmatched type keeps the default error payload. Returns the new state and
the reply frame `(message type byte, payload)` passed to
`_create_response` — the source always passes `MSG_TYPE_RESPONSE`. -/
def handle_message (st : SState) (newId : String) (writeOk : Bool)
    (data : RecvData) : SState × Nat × JValue :=
  let parsed := parse_message data
  let msgType := parsed.1
  let payload : Doc :=
    match parsed.2 with
    | ParseResult.payload d => d
    | ParseResult.err m => [("error", JValue.str m)]
  if msgType = MSG_TYPE_INSERT then
    let c := getCollectionName payload
    let document := getObjField payload "document"
    let r := MongoDBService.insert st c document newId writeOk
    (r.1, MSG_TYPE_RESPONSE,
     JValue.ofFields [("status", JValue.str "success"), ("_id", r.2)])
  else if msgType = MSG_TYPE_FIND_ONE then
    let c := getCollectionName payload
    let query := getObjField payload "query"
    let result :=
      match find_one st.collections c query with
      | some d => JValue.ofFields d
      | none => JValue.null
    (st, MSG_TYPE_RESPONSE,
     JValue.ofFields [("status", JValue.str "success"), ("document", result)])
  else if msgType = MSG_TYPE_FIND then
    let c := getCollectionName payload
    let query := getObjField payload "query"
    let results := find st.collections c query
    (st, MSG_TYPE_RESPONSE,
     JValue.ofFields [("status", JValue.str "success"),
                      ("documents", JValue.ofList (results.map JValue.ofFields))])
  else if msgType = MSG_TYPE_UPDATE then
    let c := getCollectionName payload
    let query := getObjField payload "query"
    let patch := getObjField payload "update"
    let r := update st c query patch writeOk
    (r.1, MSG_TYPE_RESPONSE,
     JValue.ofFields [("status", JValue.str "success"),
                      ("modified_count", JValue.num r.2)])
  else if msgType = MSG_TYPE_DELETE then
    let c := getCollectionName payload
    let query := getObjField payload "query"
    let r := delete st c query writeOk
    (r.1, MSG_TYPE_RESPONSE,
     JValue.ofFields [("status", JValue.str "success"),
                      ("deleted_count", JValue.num r.2)])
  else if msgType = MSG_TYPE_LIST_COLLECTIONS then
    (st, MSG_TYPE_RESPONSE,
     JValue.ofFields [("status", JValue.str "success"),
                      ("collections",
                       JValue.ofList (st.collections.map fun p => JValue.str p.1))])
  else
    (st, MSG_TYPE_RESPONSE, unknownTypePayload)

/-- One cycle of the `while` loop in `_handle_client`: empty data breaks
the loop (no reply frame is sent, the connection closes); anything else is
parsed, dispatched and answered. -/
def handle_client_step (st : SState) (newId : String) (writeOk : Bool)
    (data : RecvData) : SState × Option (Nat × JValue) :=
  match data with
  | RecvData.empty => (st, none)
  | d =>
      let r := handle_message st newId writeOk d
      (r.1, some r.2)

/-- Holds when `data` is a frame the handler cannot serve: either its JSON body fails
to decode, or its type byte is none of the defined operation types
(INSERT, UPDATE, DELETE, FIND, FIND_ONE, LIST_COLLECTIONS). -/
def undecodableOrUnknown (data : RecvData) : Prop :=
  (∃ b, data = RecvData.frame b none) ∨
  (∃ b d, data = RecvData.frame b (some d) ∧
    b ∉ [MSG_TYPE_INSERT, MSG_TYPE_UPDATE, MSG_TYPE_DELETE, MSG_TYPE_FIND,
         MSG_TYPE_FIND_ONE, MSG_TYPE_LIST_COLLECTIONS])

/-- The identifier invariant of the store (spec §3): every document sits
under the key equal to its own `_id` field. -/
def idConsistent (coll : Collection) : Prop :=
  ∀ kv ∈ coll, alget kv.2 "_id" = some kv.1

/-! # Theorems -/

theorem alget_alset_self {α : Type} [DecidableEq α] {β : Type}
    (l : List (α × β)) (k : α) (v : β) : alget (alset l k v) k = some v := by
  induction l with
  | nil => simp [alset, alget]
  | cons hd tl ih =>
    obtain ⟨k', v'⟩ := hd
    by_cases h : k' = k
    · simp [alset, alget, h]
    · simp [alset, alget, h, ih]

theorem alget_alset_ne {α : Type} [DecidableEq α] {β : Type}
    (l : List (α × β)) (k k' : α) (v : β) (h : k ≠ k') :
    alget (alset l k v) k' = alget l k' := by
  induction l with
  | nil => simp [alset, alget, h]
  | cons hd tl ih =>
    obtain ⟨k₀, v₀⟩ := hd
    by_cases h₀ : k₀ = k
    · subst h₀
      simp [alset, alget, h]
    · simp [alset, alget, h₀, ih]

theorem length_alset_mem {α : Type} [DecidableEq α] {β : Type}
    (l : List (α × β)) (k : α) (v w : β) (h : alget l k = some w) :
    (alset l k v).length = l.length := by
  induction l with
  | nil => simp [alget] at h
  | cons hd tl ih =>
    obtain ⟨k₀, v₀⟩ := hd
    by_cases h₀ : k₀ = k
    · simp [alset, h₀]
    · simp [alget, h₀] at h
      simp [alset, h₀, ih h]

theorem alset_alset {α : Type} [DecidableEq α] {β : Type}
    (l : List (α × β)) (k : α) (v w : β) :
    alset (alset l k v) k w = alset l k w := by
  induction l with
  | nil => simp [alset]
  | cons hd tl ih =>
    obtain ⟨k₀, v₀⟩ := hd
    by_cases h : k₀ = k <;> simp [alset, h, ih]

/-- C6: the query matcher reports a match iff every predicate field is
present in the document with a deep-equal value; the empty predicate
matches every document. -/
theorem docMatches_iff_fields (doc query : Doc) :
    (docMatches doc query = true ↔ ∀ kv ∈ query, alget doc kv.1 = some kv.2) ∧
    docMatches doc [] = true := by
  constructor
  · simp [docMatches]
  · rfl

/-- C7: `update` on an absent collection, or with a predicate no stored
document matches, returns 0 and leaves the whole state — the in-memory
store and the collection files — unchanged. -/
theorem update_absent_or_unmatched (st : SState) (c : String) (query patch : Doc)
    (writeOk : Bool)
    (h : alget st.collections c = none ∨
         ∀ kv ∈ (alget st.collections c).getD ([] : Collection),
           docMatches kv.2 query = false) :
    update st c query patch writeOk = (st, 0) := by
  rcases h with h | h
  · simp [update, h]
  · cases hc : alget st.collections c with
    | none => simp [update, hc]
    | some coll =>
        rw [hc] at h
        simp only [Option.getD_some] at h
        have hfil : (coll.filter fun kv => docMatches kv.2 query) = [] := by
          rw [List.filter_eq_nil_iff]
          intro kv hkv
          simp [h kv hkv]
        simp [update, hc, hfil]

theorem update_absent_or_unmatched_witness :
    (∀ kv ∈ (alget ([("users", [(JValue.str "a",
            [("_id", JValue.str "a"), ("age", JValue.num 30)])])] : Store)
          "users").getD ([] : Collection),
        docMatches kv.2 [("age", JValue.num 31)] = false) ∧
    update ⟨[("users", [(JValue.str "a",
          [("_id", JValue.str "a"), ("age", JValue.num 30)])])],
        [("users", [[("_id", JValue.str "a"), ("age", JValue.num 30)]])]⟩
      "users" [("age", JValue.num 31)] [("x", JValue.num 1)] true =
    (⟨[("users", [(JValue.str "a",
          [("_id", JValue.str "a"), ("age", JValue.num 30)])])],
        [("users", [[("_id", JValue.str "a"), ("age", JValue.num 30)]])]⟩, 0) :=
  ⟨by decide,
   update_absent_or_unmatched _ "users" _ _ true (Or.inr (by decide))⟩

/-- C4 fails on the code: in `_load_collections` the `try` wraps the whole
line loop, so the parse failure on the second line aborts the file and the
third — perfectly valid — line is never loaded. -/
theorem loadFile_bad_line_cex :
    loadFile [Line.ok [("_id", JValue.str "a")], Line.bad,
              Line.ok [("_id", JValue.str "b")]] [] =
      [(JValue.str "a", [("_id", JValue.str "a")])] ∧
    alget (loadFile [Line.ok [("_id", JValue.str "a")], Line.bad,
              Line.ok [("_id", JValue.str "b")]] []) (JValue.str "b") = none := by
  decide

/-- C4 amended: a line that fails to parse aborts loading the remainder of
that collection's file; the lines before it are kept (and the failure is
reported), but the lines after it are lost. -/
theorem loadFile_bad_aborts_rest (ls₁ ls₂ : List Line) (coll : Collection) :
    loadFile (ls₁ ++ Line.bad :: ls₂) coll = loadFile ls₁ coll := by
  induction ls₁ generalizing coll with
  | nil => simp [loadFile]
  | cons hd tl ih =>
    cases hd with
    | ok d =>
        cases h : alget d "_id" with
        | some i => simp [loadFile, h, ih]
        | none => simp [loadFile, h, ih]
    | bad => simp [loadFile]
    | blank => simp [loadFile, ih]

theorem loadFile_lastWrite (lines : List Line) (coll : Collection) (i : JValue)
    (hok : lines.all lineOk = true) :
    alget (loadFile lines coll) i =
      match lastWrite lines i with
      | some d => some d
      | none => alget coll i := by
  induction lines generalizing coll with
  | nil => simp [loadFile, lastWrite]
  | cons hd tl ih =>
    simp only [List.all_cons, Bool.and_eq_true] at hok
    cases hd with
    | bad => simp [lineOk] at hok
    | blank =>
        rw [show loadFile (Line.blank :: tl) coll = loadFile tl coll from rfl,
            show lastWrite (Line.blank :: tl) i = lastWrite tl i from rfl]
        exact ih coll hok.2
    | ok d =>
        cases hid : alget d "_id" with
        | none =>
            rw [show loadFile (Line.ok d :: tl) coll =
                  (match alget d "_id" with
                   | some j => loadFile tl (alset coll j d)
                   | none => loadFile tl coll) from rfl, hid]
            rw [show lastWrite (Line.ok d :: tl) i =
                  (match lastWrite tl i with
                   | some d' => some d'
                   | none => if alget d "_id" = some i then some d else none) from rfl]
            rw [ih coll hok.2]
            cases hlw : lastWrite tl i with
            | some d' => simp
            | none => simp [hid]
        | some j =>
            rw [show loadFile (Line.ok d :: tl) coll =
                  (match alget d "_id" with
                   | some j => loadFile tl (alset coll j d)
                   | none => loadFile tl coll) from rfl, hid]
            rw [show lastWrite (Line.ok d :: tl) i =
                  (match lastWrite tl i with
                   | some d' => some d'
                   | none => if alget d "_id" = some i then some d else none) from rfl]
            rw [ih (alset coll j d) hok.2]
            cases hlw : lastWrite tl i with
            | some d' => simp
            | none =>
                by_cases hji : j = i
                · subst hji
                  simp [hid, alget_alset_self]
                · have : ¬ (alget d "_id" = some i) := by
                    rw [hid]
                    simp
                    intro h
                    exact hji h
                  simp only [this, if_neg]
                  rw [alget_alset_ne coll j i d hji]
                  simp [hid, hji]

/-- C8: when every line of a collection file parses, replay is keyed by
`_id` in file order, so an `_id` occurring on several lines ends up bound
to the document of the last such line. -/
theorem load_last_write_wins (lines : List Line) (i : JValue) (d : Doc)
    (hok : lines.all lineOk = true) (hlast : lastWrite lines i = some d) :
    alget (loadFile lines []) i = some d := by
  rw [loadFile_lastWrite lines [] i hok, hlast]

theorem load_last_write_wins_witness :
    ([Line.ok [("_id", JValue.str "x"), ("v", JValue.num 1)],
      Line.ok [("_id", JValue.str "x"), ("v", JValue.num 2)]].all lineOk = true) ∧
    lastWrite [Line.ok [("_id", JValue.str "x"), ("v", JValue.num 1)],
               Line.ok [("_id", JValue.str "x"), ("v", JValue.num 2)]]
        (JValue.str "x") = some [("_id", JValue.str "x"), ("v", JValue.num 2)] ∧
    alget (loadFile [Line.ok [("_id", JValue.str "x"), ("v", JValue.num 1)],
                     Line.ok [("_id", JValue.str "x"), ("v", JValue.num 2)]] [])
        (JValue.str "x") = some [("_id", JValue.str "x"), ("v", JValue.num 2)] :=
  ⟨by decide, by decide,
   load_last_write_wins _ _ _ (by decide) (by decide)⟩

/-- C1 fails on the code: `update` copies every patch field into the
document, `_id` included. Patching `("_id": "b")` onto the document stored
under key `"a"` leaves the store holding, under key `"a"`, a document
whose `_id` field is `"b"` — the identifier invariant is broken instead of
the patch's `_id` being ignored or rejected. -/
theorem update_patches_id_field :
    update ⟨[("users", [(JValue.str "a",
          [("_id", JValue.str "a"), ("age", JValue.num 30)])])],
        [("users", [[("_id", JValue.str "a"), ("age", JValue.num 30)]])]⟩
      "users" [] [("_id", JValue.str "b")] true =
    (⟨[("users", [(JValue.str "a",
          [("_id", JValue.str "b"), ("age", JValue.num 30)])])],
        [("users", [[("_id", JValue.str "b"), ("age", JValue.num 30)]])]⟩, 1) ∧
    JValue.str "a" ≠ JValue.str "b" := by
  decide

/-- C3 fails on the code: when the append in `_save_document` raises
(`writeOk = false`), the exception is caught and only logged; the handler
still replies `("status": "success")` with the new id, although nothing
reached the collection file (`files` is still empty). -/
theorem insert_write_failure_reports_success :
    handle_client_step ⟨[], []⟩ "id0" false
        (RecvData.frame MSG_TYPE_INSERT (some
          [("collection", JValue.str "users"),
           ("document", JValue.ofFields [("name", JValue.str "John")])])) =
      (⟨[("users", [(JValue.str "id0",
            [("name", JValue.str "John"), ("_id", JValue.str "id0")])])], []⟩,
       some (MSG_TYPE_RESPONSE,
         JValue.ofFields [("status", JValue.str "success"),
                          ("_id", JValue.str "id0")])) := by
  decide

/-- C2 fails on the code: a frame whose JSON body does not decode is
answered, but the reply frame's message type is RESPONSE (6), not
ERROR (7) — `_handle_client` always passes `MSG_TYPE_RESPONSE` to
`_create_response`; the ERROR type only occurs in `_parse_message`'s
internal return value. -/
theorem handler_bad_frame_reply_cex :
    (handle_client_step ⟨[], []⟩ "id0" true (RecvData.frame 1 none)).2 =
      some (MSG_TYPE_RESPONSE, unknownTypePayload) ∧
    MSG_TYPE_RESPONSE ≠ MSG_TYPE_ERROR := by
  decide

/-- C2 amended: a frame that fails to decode, or whose type byte is not a
defined operation type, is answered with a reply frame of message type
RESPONSE (6) carrying the error payload
`("status": "error", "message": "Unknown message type")`, the state
unchanged; an empty received byte sequence gets no reply at all (the
handler loop breaks and the connection closes). -/
theorem handler_bad_frame_reply_is_response (st : SState) (newId : String)
    (writeOk : Bool) (data : RecvData) (h : undecodableOrUnknown data) :
    handle_client_step st newId writeOk data =
      (st, some (MSG_TYPE_RESPONSE, unknownTypePayload)) ∧
    handle_client_step st newId writeOk RecvData.empty = (st, none) := by
  refine ⟨?_, rfl⟩
  rcases h with ⟨b, rfl⟩ | ⟨b, d, rfl, hb⟩
  · rfl
  · simp only [List.mem_cons, List.not_mem_nil, or_false] at hb
    push_neg at hb
    obtain ⟨h1, h2, h3, h4, h5, h8⟩ := hb
    simp only [MSG_TYPE_INSERT, MSG_TYPE_UPDATE, MSG_TYPE_DELETE, MSG_TYPE_FIND,
               MSG_TYPE_FIND_ONE, MSG_TYPE_LIST_COLLECTIONS] at h1 h2 h3 h4 h5 h8
    simp [handle_client_step, handle_message, parse_message,
          MSG_TYPE_INSERT, MSG_TYPE_UPDATE, MSG_TYPE_DELETE, MSG_TYPE_FIND,
          MSG_TYPE_FIND_ONE, MSG_TYPE_LIST_COLLECTIONS, h1, h2, h3, h4, h5, h8]

theorem handler_bad_frame_reply_is_response_witness :
    undecodableOrUnknown (RecvData.frame 1 none) ∧
    handle_client_step ⟨[], []⟩ "id0" true (RecvData.frame 1 none) =
      (⟨[], []⟩, some (MSG_TYPE_RESPONSE, unknownTypePayload)) :=
  ⟨Or.inl ⟨1, rfl⟩,
   (handler_bad_frame_reply_is_response ⟨[], []⟩ "id0" true
      (RecvData.frame 1 none) (Or.inl ⟨1, rfl⟩)).1⟩

/-- C10: inserting a document whose `_id` is already a key of the
collection succeeds (it returns that id, there is no duplicate-key error),
silently replaces the previously stored document in place, and leaves the
collection's document count unchanged. -/
theorem insert_existing_id_replaces (st : SState) (c : String) (document : Doc)
    (newId : String) (writeOk : Bool) (coll : Collection) (i : JValue) (old : Doc)
    (hc : alget st.collections c = some coll)
    (hid : alget document "_id" = some i)
    (hold : alget coll i = some old) :
    (MongoDBService.insert st c document newId writeOk).2 = i ∧
    alget (MongoDBService.insert st c document newId writeOk).1.collections c =
      some (alset coll i document) ∧
    alget (alset coll i document) i = some document ∧
    (alset coll i document).length = coll.length := by
  refine ⟨?_, ?_, alget_alset_self _ _ _, length_alset_mem _ _ _ _ hold⟩
  · simp [MongoDBService.insert, hid]
  · simp [MongoDBService.insert, save_document, hc, hid, alget_alset_self]

theorem insert_existing_id_replaces_witness :
    (alget ([("users", [(JValue.str "a",
          [("_id", JValue.str "a"), ("v", JValue.num 1)])])] : Store) "users" =
        some [(JValue.str "a", [("_id", JValue.str "a"), ("v", JValue.num 1)])]) ∧
    (alget ([("_id", JValue.str "a"), ("v", JValue.num 2)] : Doc) "_id" =
        some (JValue.str "a")) ∧
    (alget ([(JValue.str "a", [("_id", JValue.str "a"), ("v", JValue.num 1)])] :
        Collection) (JValue.str "a") =
        some [("_id", JValue.str "a"), ("v", JValue.num 1)]) ∧
    ((MongoDBService.insert ⟨[("users", [(JValue.str "a",
            [("_id", JValue.str "a"), ("v", JValue.num 1)])])], []⟩
        "users" [("_id", JValue.str "a"), ("v", JValue.num 2)] "fresh" true).2 =
      JValue.str "a" ∧
     alget (MongoDBService.insert ⟨[("users", [(JValue.str "a",
            [("_id", JValue.str "a"), ("v", JValue.num 1)])])], []⟩
        "users" [("_id", JValue.str "a"), ("v", JValue.num 2)] "fresh" true).1.collections
        "users" =
      some (alset [(JValue.str "a", [("_id", JValue.str "a"), ("v", JValue.num 1)])]
        (JValue.str "a") [("_id", JValue.str "a"), ("v", JValue.num 2)]) ∧
     alget (alset [(JValue.str "a", [("_id", JValue.str "a"), ("v", JValue.num 1)])]
        (JValue.str "a") [("_id", JValue.str "a"), ("v", JValue.num 2)])
        (JValue.str "a") = some [("_id", JValue.str "a"), ("v", JValue.num 2)] ∧
     (alset [(JValue.str "a", [("_id", JValue.str "a"), ("v", JValue.num 1)])]
        (JValue.str "a") [("_id", JValue.str "a"), ("v", JValue.num 2)]).length =
      ([(JValue.str "a", [("_id", JValue.str "a"), ("v", JValue.num 1)])] :
        Collection).length) :=
  ⟨by decide, by decide, by decide,
   insert_existing_id_replaces
     ⟨[("users", [(JValue.str "a", [("_id", JValue.str "a"), ("v", JValue.num 1)])])], []⟩
     "users" [("_id", JValue.str "a"), ("v", JValue.num 2)] "fresh" true
     [(JValue.str "a", [("_id", JValue.str "a"), ("v", JValue.num 1)])]
     (JValue.str "a") [("_id", JValue.str "a"), ("v", JValue.num 1)]
     (by decide) (by decide) (by decide)⟩

theorem save_document_collections (st : SState) (c : String) (document : Doc)
    (newId : String) (writeOk : Bool) (i : JValue)
    (hid : alget document "_id" = some i) :
    (save_document st c document newId writeOk).collections =
      alset st.collections c
        (alset ((alget st.collections c).getD ([] : Collection)) i document) := by
  cases hc : alget st.collections c with
  | none => simp [save_document, hc, hid, alget_alset_self, alset_alset]
  | some coll => simp [save_document, hc, hid]

theorem find_one_alset (coll : Collection) (i : JValue) (d : Doc)
    (hcons : idConsistent coll) (hd : alget d "_id" = some i) :
    ((alset coll i d).map Prod.snd).find?
        (fun doc => docMatches doc [("_id", i)]) = some d := by
  have hmatch : docMatches d [("_id", i)] = true := by
    simp [docMatches, hd]
  induction coll with
  | nil => simp [alset, List.find?, hmatch]
  | cons hd₀ tl ih =>
    obtain ⟨k, doc⟩ := hd₀
    by_cases hk : k = i
    · subst hk
      rw [show alset ((k, doc) :: tl) k d = (k, d) :: tl by simp [alset]]
      simp [List.find?, hmatch]
    · have hdoc : alget doc "_id" = some k := hcons (k, doc) (by simp)
      have hnm : docMatches doc [("_id", i)] = false := by
        simp [docMatches, hdoc, hk]
      rw [show alset ((k, doc) :: tl) i d = (k, doc) :: alset tl i d by
            simp [alset, hk]]
      simp only [List.map_cons, List.find?]
      rw [hnm]
      exact ih fun kv hkv => hcons kv (by simp [hkv])

/-- C5: after `insert(c, d)` returns id `r.2`, `find_one(c, ("_id": r.2))`
returns the stored document: `d` with its `_id` field populated with the
returned id and every other field untouched. The hypothesis is the
identifier invariant (spec §3) for the collection's prior contents: each
document sits under the key equal to its own `_id` field. -/
theorem insert_find_one_round_trip (st : SState) (c : String) (d : Doc)
    (newId : String) (writeOk : Bool) (stored : Doc)
    (hcons : idConsistent ((alget st.collections c).getD ([] : Collection)))
    (hstored : stored = match alget d "_id" with
               | none => alset d "_id" (JValue.str newId)
               | some _ => d) :
    find_one (MongoDBService.insert st c d newId writeOk).1.collections c
        [("_id", (MongoDBService.insert st c d newId writeOk).2)] = some stored ∧
    alget stored "_id" = some (MongoDBService.insert st c d newId writeOk).2 ∧
    ∀ k : String, k ≠ "_id" → alget stored k = alget d k := by
  cases hid : alget d "_id" with
  | none =>
    have hstored' : stored = alset d "_id" (JValue.str newId) := by
      rw [hstored, hid]
    have hsid : alget stored "_id" = some (JValue.str newId) := by
      rw [hstored']
      exact alget_alset_self _ _ _
    have hret : (MongoDBService.insert st c d newId writeOk).2 = JValue.str newId := by
      simp [MongoDBService.insert, hid, alget_alset_self]
    have hcoll : (MongoDBService.insert st c d newId writeOk).1.collections =
        alset st.collections c
          (alset ((alget st.collections c).getD ([] : Collection))
            (JValue.str newId) stored) := by
      have : (MongoDBService.insert st c d newId writeOk).1 =
          save_document st c stored newId writeOk := by
        simp [MongoDBService.insert, hid, hstored']
      rw [this, save_document_collections st c stored newId writeOk _ hsid]
    refine ⟨?_, ?_, ?_⟩
    · rw [hret, hcoll, find_one, alget_alset_self]
      exact find_one_alset _ _ _ hcons hsid
    · rw [hret, hsid]
    · intro k hk
      rw [hstored', alget_alset_ne _ _ _ _ (Ne.symm hk)]
  | some v =>
    have hstored' : stored = d := by rw [hstored, hid]
    have hret : (MongoDBService.insert st c d newId writeOk).2 = v := by
      simp [MongoDBService.insert, hid]
    have hsid : alget stored "_id" = some v := by rw [hstored']; exact hid
    have hcoll : (MongoDBService.insert st c d newId writeOk).1.collections =
        alset st.collections c
          (alset ((alget st.collections c).getD ([] : Collection)) v stored) := by
      have : (MongoDBService.insert st c d newId writeOk).1 =
          save_document st c stored newId writeOk := by
        simp [MongoDBService.insert, hid, hstored']
      rw [this, save_document_collections st c stored newId writeOk _ hsid]
    refine ⟨?_, ?_, ?_⟩
    · rw [hret, hcoll, find_one, alget_alset_self]
      exact find_one_alset _ _ _ hcons hsid
    · rw [hret, hsid]
    · intro k hk
      rw [hstored']

theorem insert_find_one_round_trip_witness :
    idConsistent ((alget ([] : Store) "users").getD ([] : Collection)) ∧
    find_one (MongoDBService.insert ⟨[], []⟩ "users"
        [("name", JValue.str "John")] "id0" true).1.collections "users"
        [("_id", (MongoDBService.insert ⟨[], []⟩ "users"
          [("name", JValue.str "John")] "id0" true).2)] =
      some [("name", JValue.str "John"), ("_id", JValue.str "id0")] :=
  ⟨by simp [idConsistent, alget],
   (insert_find_one_round_trip ⟨[], []⟩ "users" [("name", JValue.str "John")]
      "id0" true [("name", JValue.str "John"), ("_id", JValue.str "id0")]
      (by simp [idConsistent, alget]) (by decide)).1⟩
